import Mathlib

/-!
Verification development for the ai-waste-classification-system repository.

The repository has two pipelines sharing a fixed 7-entry label registry:
an inference pipeline (predict over one image) and a batch evaluation
pipeline (confusion matrix and derived metrics).  The browser page
(src/unnamed/part_000, a Next.js page) is embedded directly from its
source.  The FastAPI backend files api/main.py and api/evaluate.py are
not present under src/, so the backend operations are modelled from the
spec, as marked on each such definition.

Numeric convention: the probability and metric arithmetic is embedded
over the rationals, with the exact-division-by-zero guards the spec
states; machine floats are modelled by exact arithmetic.
-/

/-- The Label Registry: fixed ordered list of the 7 waste category names. -/
def labels : List String :=
  "Cardboard" :: "Glass" :: "Metal" :: "Paper" :: "Plastic" :: "Trash" :: "Organic" :: []

/-- JavaScript string startsWith, embedded on the character lists of the
two strings. -/
def strStartsWith (s p : String) : Bool := p.data.isPrefixOf s.data

/-- Whitespace test used by the embedded JavaScript string trim. -/
def isJsWhitespace (c : Char) : Bool := c = ' ' || c = '\t' || c = '\n' || c = '\r'

/-- JavaScript string trim, embedded on character lists: drop whitespace
from both ends. -/
def jsTrim (s : String) : String :=
  String.mk (((s.data.dropWhile isJsWhitespace).reverse.dropWhile isJsWhitespace).reverse)

/-- A JSON value, the shape of every payload crossing the HTTP boundary. -/
inductive Json where
  | null : Json
  | bool : Bool → Json
  | num : ℚ → Json
  | str : String → Json
  | arr : List Json → Json
  | obj : List (String × Json) → Json

/-- First binding of a key in a JSON object field list. -/
def jsonLookup : List (String × Json) → String → Option Json
  | [], _ => none
  | (k, v) :: rest, key => if k = key then some v else jsonLookup rest key

/-- The object key the error taxonomy is surfaced under. -/
def errorKey : String := "error"

/-- From src/unnamed/part_000, readErrorMessage: returns the payload
error field when the payload is an object whose error property is a
string with positive trimmed length, and the fallback otherwise. -/
def readErrorMessage (payload : Json) (fallback : String) : String :=
  match payload with
  | Json.obj fields =>
      match jsonLookup fields errorKey with
      | some (Json.str s) => if 0 < (jsTrim s).length then s else fallback
      | _ => fallback
  | _ => fallback

/-- From src/unnamed/part_000: the client-side byte limit, 5 MB. -/
def MAX_CLIENT_FILE_BYTES : Nat := 5 * 1024 * 1024

/-- One decimal digit rendering of num/den, embedding toFixed applied
with argument 1 (round to nearest). -/
def toFixed1 (num den : Nat) : String :=
  let scaled := (num * 10 + den / 2) / den
  toString (scaled / 10) ++ "." ++ toString (scaled % 10)

/-- From src/unnamed/part_000, formatFileSize. -/
def formatFileSize (bytes : Nat) : String :=
  if bytes < 1024 then toString bytes ++ " B"
  else if bytes < 1024 * 1024 then toFixed1 bytes 1024 ++ " KB"
  else toFixed1 bytes (1024 * 1024) ++ " MB"

/-- The MIME type family accepted by the upload page. -/
def imageMime : String := "image/"

/-- The browser File value, reduced to the fields the page reads. -/
structure FileData where
  name : String
  type : String
  size : Nat

/-- Validation message for a non-image file. -/
def msgOnlyImages : String := "Only image files are allowed."

/-- Head of the oversize validation message. -/
def msgTooLargeA : String := "File is too large ("

/-- Tail of the oversize validation message. -/
def msgTooLargeB : String := "). Maximum size is 5.0 MB."

/-- From src/unnamed/part_000, validateFile: image MIME type required,
size strictly above MAX_CLIENT_FILE_BYTES rejected. -/
def validateFile (f : FileData) : Option String :=
  if strStartsWith f.type imageMime = true then
    if MAX_CLIENT_FILE_BYTES < f.size then
      some (msgTooLargeA ++ formatFileSize f.size ++ msgTooLargeB)
    else none
  else some msgOnlyImages

/-- The upload page component state, reduced to the fields the claims
concern; the preview object URL is modelled by its presence. -/
structure PageState where
  file : Option FileData
  previewUrl : Bool
  result : Bool
  error : Option String
  cameraOpen : Bool
  cameraError : Option String

/-- Initial component state of the page. -/
def initPage : PageState :=
  { file := none, previewUrl := false, result := false, error := none,
    cameraOpen := false, cameraError := none }

/-- From src/unnamed/part_000, resetPrediction. -/
def resetPrediction (s : PageState) : PageState :=
  { s with result := false, error := none }

/-- From src/unnamed/part_000, setPreviewFromFile. -/
def setPreviewFromFile (s : PageState) (f : Option FileData) : PageState :=
  let s1 := resetPrediction s
  { s1 with file := f, error := none, previewUrl := f.isSome }

/-- From src/unnamed/part_000, processIncomingFile. -/
def processIncomingFile (s : PageState) (f : Option FileData) : PageState :=
  match f with
  | none => setPreviewFromFile s none
  | some g =>
      match validateFile g with
      | some err => { setPreviewFromFile s none with error := some err }
      | none => setPreviewFromFile s (some g)

/-- From src/unnamed/part_000, stopCamera (the stream itself is not
modelled). -/
def stopCamera (s : PageState) : PageState := { s with cameraOpen := false }

/-- From src/unnamed/part_000, onPickFile; also the drop handler path. -/
def onPickFile (s : PageState) (f : Option FileData) : PageState :=
  processIncomingFile (stopCamera { s with cameraError := none, cameraOpen := false }) f

/-- Name given to a camera capture. -/
def capturedName : String := "captured.jpg"

/-- MIME type of a camera capture. -/
def jpegMime : String := "image/jpeg"

/-- Camera capture failure message. -/
def msgCaptureFailed : String := "Failed to capture image."

/-- From src/unnamed/part_000, captureFromCamera: the canvas blob either
fails (argument none) or yields a JPEG file of some byte size. -/
def captureFromCamera (s : PageState) (blobSize : Option Nat) : PageState :=
  match blobSize with
  | none => { s with cameraError := some msgCaptureFailed }
  | some n =>
      processIncomingFile { stopCamera s with cameraError := none }
        (some { name := capturedName, type := jpegMime, size := n })

/-- From src/unnamed/part_000, the Clear Selection button handler. -/
def clearSelection (s : PageState) : PageState :=
  { setPreviewFromFile s none with cameraError := none }

/-- The user interactions of the page that touch the selected file. -/
inductive PageEvent where
  | pick : Option FileData → PageEvent
  | drop : Option FileData → PageEvent
  | capture : Option Nat → PageEvent
  | clear : PageEvent

/-- One step of the page state machine. -/
def stepPage (s : PageState) : PageEvent → PageState
  | PageEvent.pick f => onPickFile s f
  | PageEvent.drop f => onPickFile s f
  | PageEvent.capture b => captureFromCamera s b
  | PageEvent.clear => clearSelection s

/-- The page state after a sequence of interactions from the initial
state. -/
def runPage (es : List PageEvent) : PageState := es.foldl stepPage initPage

/-- The error taxonomy of section 7 of the spec. -/
inductive AppError where
  | InvalidImage : AppError
  | PayloadRejected : AppError
  | ModelUnavailable : AppError
  | EmptyOrInvalidDataset : AppError
  | NoMetricsAvailable : AppError
  deriving DecidableEq

/-- Default label for an out-of-range registry index. -/
def noLabel : String := ""

/-- Modelled from the spec: api/main.py is not under src.  The predicted
label is the one at the argmax of the probability vector; on ties the
first (lowest) index is taken, as numpy argmax does. -/
def argmaxIdx : List ℚ → Nat
  | [] => 0
  | [_] => 0
  | x :: y :: rest =>
      let j := argmaxIdx (y :: rest)
      if x < (y :: rest).getD j 0 then j + 1 else 0

/-- Descending order on label-probability pairs. -/
def probDesc (a b : String × ℚ) : Prop := b.2 ≤ a.2

instance : DecidableRel probDesc :=
  fun a b => inferInstanceAs (Decidable (b.2 ≤ a.2))

instance : IsTotal (String × ℚ) probDesc :=
  ⟨fun a b => le_total b.2 a.2⟩

instance : IsTrans (String × ℚ) probDesc :=
  ⟨fun _ _ _ h1 h2 => le_trans h2 h1⟩

/-- Modelled from the spec: the ranked probability list pairs every
registry label with its probability and sorts descending by probability
with a stable sort, so ties keep registry order. -/
def rankProbs (v : List ℚ) : List (String × ℚ) :=
  List.insertionSort probDesc (labels.zip v)

/-- The predict response body of section 6 of the spec. -/
structure PredictionResult where
  predicted_class : String
  confidence : ℚ
  all_probabilities : List (String × ℚ)
  deriving DecidableEq

/-- Modelled from the spec: api/main.py formats the classifier output
into the predict response. -/
def formatResult (v : List ℚ) : PredictionResult :=
  { predicted_class := labels.getD (argmaxIdx v) noLabel
    confidence := v.getD (argmaxIdx v) 0
    all_probabilities := rankProbs v }

/-- An incoming predict payload: content type and byte size; the image
bytes themselves stay behind the opaque decode function. -/
structure RawPayload where
  contentType : String
  size : Nat

/-- Modelled from the spec: the configured server byte limit, default
5 MB. -/
def MAX_PAYLOAD_BYTES : Nat := 5 * 1024 * 1024

/-- Modelled from the spec: the predict operation of api/main.py.
Content type and size are validated before anything else; decode stands
for the preprocessing plus classification of the payload and the second
component of the result counts how many times decode ran. -/
def predictOp (decode : RawPayload → Option (List ℚ)) (p : RawPayload) :
    Except AppError PredictionResult × Nat :=
  if strStartsWith p.contentType imageMime = true then
    if MAX_PAYLOAD_BYTES < p.size then (Except.error AppError.PayloadRejected, 0)
    else
      match decode p with
      | none => (Except.error AppError.InvalidImage, 1)
      | some v => (Except.ok (formatResult v), 1)
  else (Except.error AppError.PayloadRejected, 0)

/-- The all-zero 7 by 7 confusion matrix. -/
def initMatrix : List (List Nat) := List.replicate 7 (List.replicate 7 0)

/-- One cell of a confusion matrix: row is the true label, column the
predicted label. -/
def cell (m : List (List Nat)) (t p : Nat) : Nat := (m.getD t []).getD p 0

/-- Modelled from the spec: increment one confusion matrix cell. -/
def bumpCell (m : List (List Nat)) (t p : Nat) : List (List Nat) :=
  m.set t ((m.getD t []).set p (cell m t p + 1))

/-- Modelled from the spec: one dataset image during evaluation, as the
pair of its ground-truth label index and the outcome of decoding plus
classification: none when the image fails to decode, otherwise the
predicted label index. -/
def evalStep : List (List Nat) × Nat → Nat × Option Nat → List (List Nat) × Nat
  | (m, sk), (_, none) => (m, sk + 1)
  | (m, sk), (t, some p) => (bumpCell m t p, sk)

/-- Modelled from the spec: fold the dataset into the confusion matrix
and the skipped count, starting from the all-zero matrix. -/
def runMatrix (ds : List (Nat × Option Nat)) : List (List Nat) × Nat :=
  ds.foldl evalStep (initMatrix, 0)

/-- Every sample has a registry ground-truth index and, when decodable,
a registry predicted index. -/
def validDS (ds : List (Nat × Option Nat)) : Prop :=
  ∀ s ∈ ds, s.1 < 7 ∧ s.2.getD 0 < 7

/-- A complete confusion matrix: 7 rows of 7 cells. -/
def matShape (m : List (List Nat)) : Prop :=
  m.length = 7 ∧ ∀ r ∈ m, r.length = 7

/-- Support of a class: its ground-truth count, the row sum. -/
def support (m : List (List Nat)) (c : Nat) : Nat := (m.getD c []).sum

/-- Number of samples predicted as a class: the column sum. -/
def predictedCount (m : List (List Nat)) (c : Nat) : Nat :=
  (m.map (fun r => r.getD c 0)).sum

/-- Modelled from the spec: per-class precision, 0 when nothing was
predicted as the class. -/
def precision (m : List (List Nat)) (c : Nat) : ℚ :=
  if predictedCount m c = 0 then 0
  else (cell m c c : ℚ) / (predictedCount m c : ℚ)

/-- Modelled from the spec: per-class recall, 0 when the class has no
ground-truth samples. -/
def recallScore (m : List (List Nat)) (c : Nat) : ℚ :=
  if support m c = 0 then 0
  else (cell m c c : ℚ) / (support m c : ℚ)

/-- Modelled from the spec: per-class F1, 0 when precision plus recallScore
is 0. -/
def f1score (m : List (List Nat)) (c : Nat) : ℚ :=
  if precision m c + recallScore m c = 0 then 0
  else 2 * precision m c * recallScore m c / (precision m c + recallScore m c)

/-- Modelled from the spec: macro average, the unweighted mean over the
7 registry classes. -/
def macroAvg (f : Nat → ℚ) : ℚ := ((List.range 7).map f).sum / 7

/-- Total ground-truth count over the 7 registry classes. -/
def totalSupport (m : List (List Nat)) : Nat :=
  ((List.range 7).map (support m)).sum

/-- Modelled from the spec: weighted average, the support-weighted mean
over the 7 registry classes. -/
def weightedAvg (m : List (List Nat)) (f : Nat → ℚ) : ℚ :=
  if totalSupport m = 0 then 0
  else ((List.range 7).map (fun c => (support m c : ℚ) * f c)).sum / (totalSupport m : ℚ)

/-- Trace of the confusion matrix: correctly classified count. -/
def traceMatrix (m : List (List Nat)) : Nat :=
  ((List.range 7).map (fun c => cell m c c)).sum

/-- Sum of all cells of the matrix. -/
def cellSum (m : List (List Nat)) : Nat := (m.map List.sum).sum

/-- The metrics document an evaluation run persists. -/
structure EvalResult where
  matrix : List (List Nat)
  skipped : Nat
  num_test_samples : Nat
  accuracy : ℚ
  macroPrecision : ℚ
  macroRecall : ℚ
  macroF1 : ℚ
  weightedPrecision : ℚ
  weightedRecall : ℚ
  weightedF1 : ℚ
  deriving DecidableEq

/-- Modelled from the spec: api/evaluate.py walks the labeled dataset,
skips images that fail to decode, accumulates the confusion matrix and
derives the metrics; when no usable image remains the run fails with
EmptyOrInvalidDataset. -/
def evaluate (ds : List (Nat × Option Nat)) : Except AppError EvalResult :=
  if ds.length - (runMatrix ds).2 = 0 then Except.error AppError.EmptyOrInvalidDataset
  else Except.ok
    { matrix := (runMatrix ds).1
      skipped := (runMatrix ds).2
      num_test_samples := ds.length - (runMatrix ds).2
      accuracy := (traceMatrix (runMatrix ds).1 : ℚ) / ((ds.length - (runMatrix ds).2 : Nat) : ℚ)
      macroPrecision := macroAvg (precision (runMatrix ds).1)
      macroRecall := macroAvg (recallScore (runMatrix ds).1)
      macroF1 := macroAvg (f1score (runMatrix ds).1)
      weightedPrecision := weightedAvg (runMatrix ds).1 (precision (runMatrix ds).1)
      weightedRecall := weightedAvg (runMatrix ds).1 (recallScore (runMatrix ds).1)
      weightedF1 := weightedAvg (runMatrix ds).1 (f1score (runMatrix ds).1) }

/-- The published metrics document: none before any evaluation ran. -/
structure ServerState where
  published : Option EvalResult
  deriving DecidableEq

/-- Modelled from the spec: one human-readable message per error kind. -/
def errorMessage : AppError → String
  | AppError.InvalidImage => "Invalid or unreadable image."
  | AppError.PayloadRejected => "Payload rejected: not an image or larger than 5 MB."
  | AppError.ModelUnavailable => "Model failed to load."
  | AppError.EmptyOrInvalidDataset => "No valid images found in the test dataset."
  | AppError.NoMetricsAvailable => "No metrics available: run an evaluation first."

/-- Modelled from the spec: every taxonomy error crosses the boundary as
a structured object with one error field. -/
def surfaceError (e : AppError) : Json :=
  Json.obj ((errorKey, Json.str (errorMessage e)) :: [])

/-- Modelled from the spec: an evaluation run publishes its metrics
document only on success; a failed run leaves the published state
untouched. -/
def runEval (st : ServerState) (ds : List (Nat × Option Nat)) :
    ServerState × Except AppError EvalResult :=
  match evaluate ds with
  | Except.error e => (st, Except.error e)
  | Except.ok r => ({ published := some r }, Except.ok r)

/-- Modelled from the spec: the metrics query serves the most recent
published document and fails with a structured error when none exists. -/
def metricsQuery (st : ServerState) : Except Json EvalResult :=
  match st.published with
  | none => Except.error (surfaceError AppError.NoMetricsAvailable)
  | some r => Except.ok r

/-- Invariant of the page state: any held file passed validation. -/
def fileOK (s : PageState) : Prop :=
  ∀ f : FileData, s.file = some f → validateFile f = none

/-- A concrete probability vector used to exercise the theorems. -/
def probsW : List ℚ :=
  (1 : ℚ)/2 :: 1/4 :: 1/8 :: 1/16 :: 1/32 :: 1/64 :: 1/64 :: []

/-- A concrete probability vector with a tie at the maximum. -/
def probsTie : List ℚ :=
  (3 : ℚ)/10 :: 3/10 :: 1/10 :: 1/10 :: 1/10 :: 1/10 :: 0 :: []

/-- A balanced dataset: one sample per class, each classified as itself. -/
def dsBalanced : List (Nat × Option Nat) :=
  (0, some 0) :: (1, some 1) :: (2, some 2) :: (3, some 3) ::
    (4, some 4) :: (5, some 5) :: (6, some 6) :: []

/-- A dataset with one misclassification and one undecodable image. -/
def dsMixed : List (Nat × Option Nat) :=
  (0, some 1) :: (2, none) :: (6, some 6) :: []

/-- A dataset in which class 6 has no ground-truth samples. -/
def dsNoSix : List (Nat × Option Nat) :=
  (0, some 0) :: (1, some 0) :: []

/-- A dataset in which every image fails to decode. -/
def dsAllFail : List (Nat × Option Nat) :=
  (0, none) :: (3, none) :: []

/-- A decode function that always fails. -/
def decodeNone : RawPayload → Option (List ℚ) := fun _ => none

/-- A decode function that always yields the concrete vector. -/
def decodeW : RawPayload → Option (List ℚ) := fun _ => some probsW

/-- An oversized JPEG payload, 6 MB. -/
def payloadBig : RawPayload := { contentType := jpegMime, size := 6 * 1024 * 1024 }

/-- A small JPEG payload. -/
def payloadOk : RawPayload := { contentType := jpegMime, size := 1024 }

/-- An image file of exactly the 5 MB limit. -/
def fileEdge : FileData :=
  { name := capturedName, type := jpegMime, size := 5 * 1024 * 1024 }

/-- Server state before any evaluation ran. -/
def stEmpty : ServerState := { published := none }

/-- The confusion matrix of the balanced dataset. -/
def matBalanced : List (List Nat) :=
  (1::0::0::0::0::0::0::[]) :: (0::1::0::0::0::0::0::[]) ::
    (0::0::1::0::0::0::0::[]) :: (0::0::0::1::0::0::0::[]) ::
    (0::0::0::0::1::0::0::[]) :: (0::0::0::0::0::1::0::[]) ::
    (0::0::0::0::0::0::1::[]) :: []

/-- The metrics document of the balanced dataset. -/
def resBalanced : EvalResult :=
  { matrix := matBalanced
    skipped := 0
    num_test_samples := 7
    accuracy := 1
    macroPrecision := 1
    macroRecall := 1
    macroF1 := 1
    weightedPrecision := 1
    weightedRecall := 1
    weightedF1 := 1 }

/-- A fallback message for the client error reader. -/
def fallbackMsg : String := "Request failed."

/-- A sample error payload text with surrounding whitespace. -/
def sampleErr : String := " boom "

theorem getD_set_same {α : Type} (l : List α) (i : Nat) (x d : α) (h : i < l.length) :
    (l.set i x).getD i d = x := by
  rw [List.getD_eq_getElem _ _ (by simpa using h)]
  simp

theorem getD_set_other {α : Type} (l : List α) (i j : Nat) (x d : α) (h : i ≠ j) :
    (l.set i x).getD j d = l.getD j d := by
  by_cases hj : j < l.length
  · rw [List.getD_eq_getElem _ _ (by simpa using hj), List.getD_eq_getElem _ _ hj]
    exact List.getElem_set_ne h _
  · rw [List.getD_eq_default _ _ (by simpa using Nat.le_of_not_lt hj),
      List.getD_eq_default _ _ (Nat.le_of_not_lt hj)]

theorem getD_le_sum : ∀ (l : List Nat) (p : Nat), l.getD p 0 ≤ l.sum
  | [], p => by simp
  | a :: as, 0 => by
      rw [List.getD_cons_zero, List.sum_cons]
      exact Nat.le_add_right a as.sum
  | a :: as, p + 1 => by
      rw [List.getD_cons_succ, List.sum_cons]
      exact le_trans (getD_le_sum as p) (Nat.le_add_left _ _)

theorem getD_le_map_sum {α : Type} : ∀ (l : List α) (t : Nat) (g : α → Nat) (d : α),
    t < l.length → g (l.getD t d) ≤ (l.map g).sum
  | a :: as, 0, g, d, _ => by
      rw [List.getD_cons_zero, List.map_cons, List.sum_cons]
      exact Nat.le_add_right _ _
  | a :: as, t + 1, g, d, h => by
      rw [List.getD_cons_succ, List.map_cons, List.sum_cons]
      have ht : t < as.length := by
        simp only [List.length_cons] at h
        omega
      exact le_trans (getD_le_map_sum as t g d ht) (Nat.le_add_left _ _)

theorem sum_set_bump : ∀ (l : List Nat) (i : Nat), i < l.length →
    (l.set i (l.getD i 0 + 1)).sum = l.sum + 1
  | a :: as, 0, _ => by
      rw [List.getD_cons_zero]
      show (a + 1 + as.sum) = a + as.sum + 1
      omega
  | a :: as, i + 1, h => by
      rw [List.getD_cons_succ, List.set_cons_succ, List.sum_cons, List.sum_cons,
        sum_set_bump as i (by simp only [List.length_cons] at h; omega)]
      omega

theorem cellSum_set_row : ∀ (m : List (List Nat)) (t : Nat) (row : List Nat),
    t < m.length → row.sum = (m.getD t []).sum + 1 →
    cellSum (m.set t row) = cellSum m + 1
  | r :: rs, 0, row, _, hrow => by
      show ((row :: rs).map List.sum).sum = ((r :: rs).map List.sum).sum + 1
      rw [List.map_cons, List.sum_cons, List.map_cons, List.sum_cons]
      rw [List.getD_cons_zero] at hrow
      omega
  | r :: rs, t + 1, row, ht, hrow => by
      rw [List.set_cons_succ]
      have ht2 : t < rs.length := by simp only [List.length_cons] at ht; omega
      have hrow2 : row.sum = (rs.getD t []).sum + 1 := by
        rwa [List.getD_cons_succ] at hrow
      show ((r :: rs.set t row).map List.sum).sum = ((r :: rs).map List.sum).sum + 1
      rw [List.map_cons, List.sum_cons, List.map_cons, List.sum_cons]
      have hrec := cellSum_set_row rs t row ht2 hrow2
      unfold cellSum at hrec
      omega

theorem replicate_getD {α : Type} : ∀ (n p : Nat) (a d : α),
    (List.replicate n a).getD p d = if p < n then a else d
  | 0, p, a, d => by simp
  | n + 1, 0, a, d => by simp [List.replicate_succ]
  | n + 1, p + 1, a, d => by
      rw [List.replicate_succ, List.getD_cons_succ, replicate_getD n p a d]
      by_cases h : p < n
      · rw [if_pos h, if_pos (by omega)]
      · rw [if_neg h, if_neg (by omega)]

theorem cell_initMatrix (t p : Nat) : cell initMatrix t p = 0 := by
  show ((List.replicate 7 (List.replicate 7 0)).getD t []).getD p 0 = 0
  rw [replicate_getD]
  by_cases ht : t < 7
  · rw [if_pos ht, replicate_getD]
    by_cases hp : p < 7
    · rw [if_pos hp]
    · rw [if_neg hp]
  · rw [if_neg ht]
    simp

theorem initMatrix_shape : matShape initMatrix := by
  constructor
  · rfl
  · intro r hr
    rw [List.eq_of_mem_replicate hr]
    rfl

theorem bumpCell_shape (m : List (List Nat)) (t p : Nat) (hm : matShape m) (ht : t < 7) :
    matShape (bumpCell m t p) := by
  obtain ⟨hlen, hrows⟩ := hm
  constructor
  · rw [bumpCell, List.length_set]
    exact hlen
  · intro r hr
    rcases List.mem_or_eq_of_mem_set hr with h | h
    · exact hrows r h
    · subst h
      rw [List.length_set]
      apply hrows
      have ht2 : t < m.length := by omega
      rw [List.getD_eq_getElem _ _ ht2]
      exact List.getElem_mem ht2

theorem row_length (m : List (List Nat)) (t : Nat) (hm : matShape m) (ht : t < 7) :
    (m.getD t []).length = 7 := by
  obtain ⟨hlen, hrows⟩ := hm
  have ht2 : t < m.length := by omega
  apply hrows
  rw [List.getD_eq_getElem _ _ ht2]
  exact List.getElem_mem ht2

theorem cell_bumpCell_same (m : List (List Nat)) (t p : Nat) (hm : matShape m)
    (ht : t < 7) (hp : p < 7) :
    cell (bumpCell m t p) t p = cell m t p + 1 := by
  have ht2 : t < m.length := hm.1 ▸ ht
  have hrowlen := row_length m t hm ht
  show ((bumpCell m t p).getD t []).getD p 0 = cell m t p + 1
  rw [bumpCell, getD_set_same _ _ _ _ ht2, getD_set_same _ _ _ _ (by omega)]

theorem cell_bumpCell_other (m : List (List Nat)) (t p t2 p2 : Nat)
    (h : ¬(t = t2 ∧ p = p2)) :
    cell (bumpCell m t p) t2 p2 = cell m t2 p2 := by
  by_cases hteq : t = t2
  · subst hteq
    have hp : p ≠ p2 := fun hh => h ⟨rfl, hh⟩
    by_cases ht2 : t < m.length
    · show ((bumpCell m t p).getD t []).getD p2 0 = (m.getD t []).getD p2 0
      rw [bumpCell, getD_set_same _ _ _ _ ht2, getD_set_other _ _ _ _ _ hp]
    · rw [bumpCell, List.set_eq_of_length_le (Nat.le_of_not_lt ht2)]
  · show ((bumpCell m t p).getD t2 []).getD p2 0 = cell m t2 p2
    rw [bumpCell, getD_set_other _ _ _ _ _ hteq]
    rfl

theorem cellSum_bumpCell (m : List (List Nat)) (t p : Nat) (hm : matShape m)
    (ht : t < 7) (hp : p < 7) :
    cellSum (bumpCell m t p) = cellSum m + 1 := by
  have ht2 : t < m.length := hm.1 ▸ ht
  have hrowlen := row_length m t hm ht
  exact cellSum_set_row m t _ ht2 (sum_set_bump (m.getD t []) p (by omega))

theorem validDS_head (s : Nat × Option Nat) (ds : List (Nat × Option Nat))
    (hv : validDS (s :: ds)) : s.1 < 7 ∧ s.2.getD 0 < 7 :=
  hv s (List.mem_cons_self s ds)

theorem validDS_tail (s : Nat × Option Nat) (ds : List (Nat × Option Nat))
    (hv : validDS (s :: ds)) : validDS ds :=
  fun x hx => hv x (List.mem_cons_of_mem s hx)

theorem evalFold_skipped : ∀ (ds : List (Nat × Option Nat)) (m : List (List Nat)) (sk : Nat),
    (ds.foldl evalStep (m, sk)).2 = sk + (ds.filter (fun s => s.2.isNone)).length
  | [], m, sk => by simp
  | (t, none) :: ds, m, sk => by
      rw [List.foldl_cons]
      show (ds.foldl evalStep (m, sk + 1)).2 = _
      rw [evalFold_skipped ds m (sk + 1), List.filter_cons]
      simp
      omega
  | (t, some p) :: ds, m, sk => by
      rw [List.foldl_cons]
      show (ds.foldl evalStep (bumpCell m t p, sk)).2 = _
      rw [evalFold_skipped ds (bumpCell m t p) sk, List.filter_cons]
      simp

theorem evalFold_shape : ∀ (ds : List (Nat × Option Nat)) (m : List (List Nat)) (sk : Nat),
    matShape m → validDS ds → matShape ((ds.foldl evalStep (m, sk)).1)
  | [], m, sk, hm, _ => by simpa using hm
  | (t, none) :: ds, m, sk, hm, hv => by
      rw [List.foldl_cons]
      exact evalFold_shape ds m (sk + 1) hm (validDS_tail _ _ hv)
  | (t, some p) :: ds, m, sk, hm, hv => by
      rw [List.foldl_cons]
      have ht : t < 7 := (validDS_head _ _ hv).1
      exact evalFold_shape ds (bumpCell m t p) sk (bumpCell_shape m t p hm ht)
        (validDS_tail _ _ hv)

theorem evalFold_cellSum : ∀ (ds : List (Nat × Option Nat)) (m : List (List Nat)) (sk : Nat),
    matShape m → validDS ds →
    cellSum ((ds.foldl evalStep (m, sk)).1)
      = cellSum m + (ds.filter (fun s => s.2.isSome)).length
  | [], m, sk, _, _ => by simp
  | (t, none) :: ds, m, sk, hm, hv => by
      rw [List.foldl_cons]
      show cellSum ((ds.foldl evalStep (m, sk + 1)).1) = _
      rw [evalFold_cellSum ds m (sk + 1) hm (validDS_tail _ _ hv), List.filter_cons]
      simp
  | (t, some p) :: ds, m, sk, hm, hv => by
      rw [List.foldl_cons]
      have ht : t < 7 := (validDS_head _ _ hv).1
      have hp : p < 7 := by
        have := (validDS_head _ _ hv).2
        simpa using this
      show cellSum ((ds.foldl evalStep (bumpCell m t p, sk)).1) = _
      rw [evalFold_cellSum ds (bumpCell m t p) sk (bumpCell_shape m t p hm ht)
        (validDS_tail _ _ hv), cellSum_bumpCell m t p hm ht hp, List.filter_cons]
      simp
      omega

theorem evalFold_cell : ∀ (ds : List (Nat × Option Nat)) (m : List (List Nat)) (sk t p : Nat),
    matShape m → validDS ds → t < 7 → p < 7 →
    cell ((ds.foldl evalStep (m, sk)).1) t p
      = cell m t p + (ds.filter (fun s => decide (s.1 = t ∧ s.2 = some p))).length
  | [], m, sk, t, p, _, _, _, _ => by simp
  | (a, none) :: ds, m, sk, t, p, hm, hv, ht, hp => by
      rw [List.foldl_cons]
      show cell ((ds.foldl evalStep (m, sk + 1)).1) t p = _
      rw [evalFold_cell ds m (sk + 1) t p hm (validDS_tail _ _ hv) ht hp, List.filter_cons]
      simp
  | (a, some q) :: ds, m, sk, t, p, hm, hv, ht, hp => by
      rw [List.foldl_cons]
      have ha : a < 7 := (validDS_head _ _ hv).1
      have hq : q < 7 := by
        have := (validDS_head _ _ hv).2
        simpa using this
      show cell ((ds.foldl evalStep (bumpCell m a q, sk)).1) t p = _
      rw [evalFold_cell ds (bumpCell m a q) sk t p (bumpCell_shape m a q hm ha)
        (validDS_tail _ _ hv) ht hp, List.filter_cons]
      by_cases hat : a = t ∧ q = p
      · obtain ⟨rfl, rfl⟩ := hat
        rw [cell_bumpCell_same m a q hm ha hq]
        simp
        omega
      · rw [cell_bumpCell_other m a q t p hat]
        simp [hat]

theorem filter_isSome_add_isNone : ∀ (ds : List (Nat × Option Nat)),
    (ds.filter (fun s => s.2.isSome)).length + (ds.filter (fun s => s.2.isNone)).length
      = ds.length
  | [] => rfl
  | (a, o) :: ds => by
      have := filter_isSome_add_isNone ds
      cases o <;> simp [List.filter_cons] <;> omega

theorem filter_isNone_eq_length_iff : ∀ (ds : List (Nat × Option Nat)),
    (ds.filter (fun s => s.2.isNone)).length = ds.length ↔ ∀ s ∈ ds, s.2 = none
  | [] => by simp
  | (a, o) :: ds => by
      cases o with
      | none =>
          simp only [List.filter_cons]
          simp [filter_isNone_eq_length_iff ds]
      | some q =>
          constructor
          · intro h
            exfalso
            have hle := List.length_filter_le (fun s : Nat × Option Nat => s.2.isNone) ds
            simp [List.filter_cons] at h
            omega
          · intro h
            exfalso
            have := h (a, some q) (List.mem_cons_self _ _)
            simp at this

theorem range_getD_sum_nat : ∀ (l : List Nat),
    ((List.range l.length).map (fun i => l.getD i 0)).sum = l.sum
  | [] => by simp
  | a :: as => by
      rw [List.length_cons, List.range_succ_eq_map, List.map_cons, List.sum_cons]
      rw [List.map_map]
      have hmap : (List.map ((fun i => (a :: as).getD i 0) ∘ Nat.succ) (List.range as.length))
          = List.map (fun i => as.getD i 0) (List.range as.length) := by
        apply List.map_congr_left
        intro i _
        show (a :: as).getD (i + 1) 0 = as.getD i 0
        rw [List.getD_cons_succ]
      rw [hmap, range_getD_sum_nat as, List.getD_cons_zero, List.sum_cons]

theorem range_rowsum_eq_cellSum : ∀ (m : List (List Nat)),
    ((List.range m.length).map (fun i => (m.getD i []).sum)).sum = cellSum m
  | [] => by simp [cellSum]
  | r :: rs => by
      rw [List.length_cons, List.range_succ_eq_map, List.map_cons, List.sum_cons]
      rw [List.map_map]
      have hmap : (List.map ((fun i => ((r :: rs).getD i []).sum) ∘ Nat.succ) (List.range rs.length))
          = List.map (fun i => (rs.getD i []).sum) (List.range rs.length) := by
        apply List.map_congr_left
        intro i _
        show ((r :: rs).getD (i + 1) []).sum = (rs.getD i []).sum
        rw [List.getD_cons_succ]
      rw [hmap, range_rowsum_eq_cellSum rs, List.getD_cons_zero]
      show r.sum + cellSum rs = ((r :: rs).map List.sum).sum
      rw [List.map_cons, List.sum_cons]
      rfl

theorem totalSupport_eq_cellSum (m : List (List Nat)) (h : m.length = 7) :
    totalSupport m = cellSum m := by
  unfold totalSupport support
  rw [← h, range_rowsum_eq_cellSum]

theorem support_eq_zero_of_cells (m : List (List Nat)) (c : Nat)
    (hrow : (m.getD c []).length = 7)
    (hz : ∀ p, p < 7 → cell m c p = 0) : support m c = 0 := by
  unfold support
  rw [← range_getD_sum_nat (m.getD c [])]
  rw [hrow]
  apply List.sum_eq_zero
  intro x hx
  simp only [List.mem_map, List.mem_range] at hx
  obtain ⟨p, hp, hpx⟩ := hx
  rw [← hpx]
  exact hz p hp

theorem row_eq_zero_of_cells (m : List (List Nat)) (c : Nat)
    (hrow : (m.getD c []).length = 7)
    (hz : ∀ p, p < 7 → cell m c p = 0) : m.getD c [] = List.replicate 7 0 := by
  rw [List.eq_replicate_iff]
  refine ⟨hrow, ?_⟩
  intro b hb
  obtain ⟨i, hi, hbe⟩ := List.mem_iff_getElem.mp hb
  have hcell : cell m c i = b := by
    show (m.getD c []).getD i 0 = b
    rw [List.getD_eq_getElem _ _ hi]
    exact hbe
  rw [← hcell]
  exact hz i (by omega)

theorem argmaxIdx_cons2 (x y : ℚ) (rest : List ℚ) :
    argmaxIdx (x :: y :: rest)
      = if x < (y :: rest).getD (argmaxIdx (y :: rest)) 0
        then argmaxIdx (y :: rest) + 1 else 0 := rfl

theorem argmaxIdx_lt_length : ∀ (v : List ℚ), v ≠ [] → argmaxIdx v < v.length
  | [], h => absurd rfl h
  | [_], _ => Nat.zero_lt_one
  | x :: y :: rest, _ => by
      rw [argmaxIdx_cons2]
      have ih := argmaxIdx_lt_length (y :: rest) (by simp)
      by_cases hx : x < (y :: rest).getD (argmaxIdx (y :: rest)) 0
      · rw [if_pos hx]
        simp only [List.length_cons] at ih ⊢
        omega
      · rw [if_neg hx]
        simp only [List.length_cons]
        omega

theorem argmaxIdx_is_max : ∀ (v : List ℚ) (j : Nat), j < v.length →
    v.getD j 0 ≤ v.getD (argmaxIdx v) 0
  | [], j, h => by simp at h
  | [x], j, h => by
      have hj : j = 0 := by simpa using h
      subst hj
      exact le_refl _
  | x :: y :: rest, j, h => by
      rw [argmaxIdx_cons2]
      by_cases hx : x < (y :: rest).getD (argmaxIdx (y :: rest)) 0
      · rw [if_pos hx, List.getD_cons_succ]
        cases j with
        | zero =>
            rw [List.getD_cons_zero]
            exact le_of_lt hx
        | succ j =>
            rw [List.getD_cons_succ]
            exact argmaxIdx_is_max (y :: rest) j
              (by simp only [List.length_cons] at h ⊢; omega)
      · rw [if_neg hx, List.getD_cons_zero]
        push_neg at hx
        cases j with
        | zero =>
            rw [List.getD_cons_zero]
        | succ j =>
            rw [List.getD_cons_succ]
            exact le_trans
              (argmaxIdx_is_max (y :: rest) j
                (by simp only [List.length_cons] at h ⊢; omega)) hx

theorem argmaxIdx_first : ∀ (v : List ℚ) (j : Nat), j < argmaxIdx v →
    v.getD j 0 < v.getD (argmaxIdx v) 0
  | [], j, h => by simp [argmaxIdx] at h
  | [x], j, h => by simp [argmaxIdx] at h
  | x :: y :: rest, j, h => by
      rw [argmaxIdx_cons2] at h ⊢
      by_cases hx : x < (y :: rest).getD (argmaxIdx (y :: rest)) 0
      · rw [if_pos hx] at h ⊢
        rw [List.getD_cons_succ]
        cases j with
        | zero =>
            rw [List.getD_cons_zero]
            exact hx
        | succ j =>
            rw [List.getD_cons_succ]
            exact argmaxIdx_first (y :: rest) j (Nat.lt_of_succ_lt_succ h)
      · rw [if_neg hx] at h
        exact absurd h (Nat.not_lt_zero j)

theorem validateFile_none_iff (f : FileData) :
    validateFile f = none
      ↔ strStartsWith f.type imageMime = true ∧ f.size ≤ MAX_CLIENT_FILE_BYTES := by
  unfold validateFile
  by_cases h1 : strStartsWith f.type imageMime = true
  · rw [if_pos h1]
    by_cases h2 : MAX_CLIENT_FILE_BYTES < f.size
    · rw [if_pos h2]
      simp [h1]
      omega
    · rw [if_neg h2]
      simp [h1]
      omega
  · rw [if_neg h1]
    simp [h1]

theorem processIncomingFile_fileOK (s : PageState) (f : Option FileData) :
    fileOK (processIncomingFile s f) := by
  intro g hg
  cases f with
  | none => simp [processIncomingFile, setPreviewFromFile, resetPrediction] at hg
  | some f0 =>
      cases hval : validateFile f0 with
      | some err =>
          simp [processIncomingFile, hval, setPreviewFromFile, resetPrediction] at hg
      | none =>
          simp [processIncomingFile, hval, setPreviewFromFile, resetPrediction] at hg
          rw [← hg]
          exact hval

theorem stepPage_fileOK (s : PageState) (e : PageEvent) (h : fileOK s) :
    fileOK (stepPage s e) := by
  cases e with
  | pick f => exact processIncomingFile_fileOK _ f
  | drop f => exact processIncomingFile_fileOK _ f
  | capture b =>
      cases b with
      | none =>
          intro g hg
          simp [stepPage, captureFromCamera] at hg
          exact h g hg
      | some n => exact processIncomingFile_fileOK _ _
  | clear =>
      intro g hg
      simp [stepPage, clearSelection, setPreviewFromFile, resetPrediction] at hg

theorem foldl_stepPage_fileOK : ∀ (es : List PageEvent) (s : PageState),
    fileOK s → fileOK (es.foldl stepPage s)
  | [], s, h => h
  | e :: es, s, h => by
      rw [List.foldl_cons]
      exact foldl_stepPage_fileOK es (stepPage s e) (stepPage_fileOK s e h)

theorem runPage_fileOK (es : List PageEvent) : fileOK (runPage es) := by
  apply foldl_stepPage_fileOK
  intro g hg
  simp [initPage] at hg

theorem rankProbs_length (v : List ℚ) (h7 : v.length = 7) :
    (rankProbs v).length = 7 := by
  unfold rankProbs
  rw [List.length_insertionSort, List.length_zip, h7]
  rfl

theorem rankProbs_perm_labels (v : List ℚ) (h7 : v.length = 7) :
    ((rankProbs v).map Prod.fst).Perm labels := by
  have hperm := List.perm_insertionSort probDesc (labels.zip v)
  have := hperm.map Prod.fst
  rwa [List.map_fst_zip labels v (by rw [h7]; rfl)] at this

theorem rankProbs_sum (v : List ℚ) (h7 : v.length = 7) :
    ((rankProbs v).map Prod.snd).sum = v.sum := by
  have hperm := List.perm_insertionSort probDesc (labels.zip v)
  have := (hperm.map Prod.snd).sum_eq
  rwa [List.map_snd_zip labels v (by rw [h7]; rfl)] at this

theorem rankProbs_sorted (v : List ℚ) :
    List.Sorted probDesc (rankProbs v) :=
  List.sorted_insertionSort probDesc (labels.zip v)

theorem cellSum_runMatrix (ds : List (Nat × Option Nat)) (hv : validDS ds) :
    cellSum (runMatrix ds).1 = ds.length - (runMatrix ds).2 := by
  have hcs := evalFold_cellSum ds initMatrix 0 initMatrix_shape hv
  have hsk := evalFold_skipped ds initMatrix 0
  have hcnt := filter_isSome_add_isNone ds
  show cellSum ((ds.foldl evalStep (initMatrix, 0)).1)
    = ds.length - (ds.foldl evalStep (initMatrix, 0)).2
  rw [hcs, hsk]
  have hz : cellSum initMatrix = 0 := rfl
  omega

theorem cells_zero_of_absent (ds : List (Nat × Option Nat)) (hv : validDS ds)
    (c : Nat) (hc : c < 7) (habs : ∀ s ∈ ds, s.1 ≠ c) :
    ∀ p, p < 7 → cell (runMatrix ds).1 c p = 0 := by
  intro p hp
  have hc2 : cell (runMatrix ds).1 c p
      = cell initMatrix c p
        + (ds.filter (fun s => decide (s.1 = c ∧ s.2 = some p))).length :=
    evalFold_cell ds initMatrix 0 c p initMatrix_shape hv hc hp
  have hfil : ds.filter (fun s => decide (s.1 = c ∧ s.2 = some p)) = [] := by
    rw [List.filter_eq_nil_iff]
    intro s hs
    simp only [decide_eq_true_eq, not_and]
    intro h1
    exact absurd h1 (habs s hs)
  rw [hc2, cell_initMatrix, hfil]
  rfl

theorem weightedAvg_eq_macroAvg (m : List (List Nat)) (f : Nat → ℚ)
    (hts : totalSupport m ≠ 0)
    (heq : ∀ c, c < 7 → ∀ c2, c2 < 7 → support m c = support m c2) :
    weightedAvg m f = macroAvg f := by
  have hall : ∀ c, c < 7 → support m c = support m 0 :=
    fun c hc => heq c hc 0 (by norm_num)
  have hts7 : totalSupport m = 7 * support m 0 := by
    unfold totalSupport
    have hmap : (List.range 7).map (support m)
        = (List.range 7).map (fun _ => support m 0) :=
      List.map_congr_left (fun c hcmem => hall c (List.mem_range.mp hcmem))
    rw [hmap]
    simp [List.map_const', List.sum_replicate, smul_eq_mul]
    omega
  have hk0 : support m 0 ≠ 0 := by omega
  have hk0c : ((support m 0 : Nat) : ℚ) ≠ 0 := Nat.cast_ne_zero.mpr hk0
  unfold weightedAvg macroAvg
  rw [if_neg hts]
  have hnum : (List.range 7).map (fun c => (support m c : ℚ) * f c)
      = (List.range 7).map (fun c => ((support m 0 : Nat) : ℚ) * f c) := by
    apply List.map_congr_left
    intro c hcmem
    rw [hall c (List.mem_range.mp hcmem)]
  rw [hnum, List.sum_map_mul_left, hts7]
  push_cast
  rw [mul_comm (7 : ℚ) ((support m 0 : Nat) : ℚ),
    mul_div_mul_left _ _ hk0c]

/-- Claim C10: readErrorMessage returns the payload error field exactly
when the payload is a non-null object whose error property is a string
of positive trimmed length; in every other case (non-object payload,
missing property, non-string value, empty or whitespace-only string) it
returns the fallback unchanged. -/
theorem readErrorMessage_spec (p : Json) (fb : String) :
    (∀ fields s, p = Json.obj fields →
      jsonLookup fields errorKey = some (Json.str s) →
      0 < (jsTrim s).length → readErrorMessage p fb = s) ∧
    ((∀ fields, p = Json.obj fields →
        ∀ s, jsonLookup fields errorKey = some (Json.str s) → (jsTrim s).length = 0) →
      readErrorMessage p fb = fb) := by
  constructor
  · intro fields s hp hl ht
    subst hp
    simp only [readErrorMessage, hl]
    rw [if_pos ht]
  · intro h
    cases p with
    | obj fields =>
        cases hl : jsonLookup fields errorKey with
        | none => simp [readErrorMessage, hl]
        | some j =>
            cases j with
            | str s =>
                have hz := h fields rfl s hl
                simp only [readErrorMessage, hl]
                rw [if_neg (by omega)]
            | null => simp [readErrorMessage, hl]
            | bool b => simp [readErrorMessage, hl]
            | num q => simp [readErrorMessage, hl]
            | arr xs => simp [readErrorMessage, hl]
            | obj fs => simp [readErrorMessage, hl]
    | null => rfl
    | bool b => rfl
    | num q => rfl
    | str s => rfl
    | arr xs => rfl

/-- Claim C10 witness: a concrete error object and a non-object payload. -/
theorem readErrorMessage_spec_witness :
    readErrorMessage (Json.obj ((errorKey, Json.str sampleErr) :: [])) fallbackMsg
        = sampleErr ∧
      readErrorMessage Json.null fallbackMsg = fallbackMsg :=
  ⟨(readErrorMessage_spec (Json.obj ((errorKey, Json.str sampleErr) :: [])) fallbackMsg).1
      ((errorKey, Json.str sampleErr) :: []) sampleErr rfl (by simp [jsonLookup]) (by decide),
    (readErrorMessage_spec Json.null fallbackMsg).2 (by intro fields hf; cases hf)⟩

/-- Claim C9: every file the upload page of src/unnamed/part_000 holds
in component state passed validateFile, so its MIME type starts with the
image prefix and its size is at most 5242880 bytes; processIncomingFile
clears the selection and stores an error message instead of storing a
file that fails validation; and a file of exactly 5242880 bytes is
accepted because the size check rejects only strictly greater sizes. -/
theorem page_file_invariant (es : List PageEvent) (f : FileData) :
    ((runPage es).file = some f →
      validateFile f = none ∧ strStartsWith f.type imageMime = true ∧
        f.size ≤ MAX_CLIENT_FILE_BYTES) ∧
    (∀ s : PageState, ∀ g : FileData, validateFile g ≠ none →
      (processIncomingFile s (some g)).file = none ∧
        (processIncomingFile s (some g)).error ≠ none) ∧
    (strStartsWith f.type imageMime = true → f.size = MAX_CLIENT_FILE_BYTES →
      validateFile f = none) := by
  refine ⟨?_, ?_, ?_⟩
  · intro h
    have hval := runPage_fileOK es f h
    exact ⟨hval, (validateFile_none_iff f).mp hval⟩
  · intro s g hval
    cases hv : validateFile g with
    | none => exact absurd hv hval
    | some err =>
        constructor
        · simp [processIncomingFile, hv, setPreviewFromFile, resetPrediction]
        · simp [processIncomingFile, hv, setPreviewFromFile, resetPrediction]
  · intro h1 h2
    exact (validateFile_none_iff f).mpr ⟨h1, by omega⟩

/-- Claim C9 witness: the 5 MB boundary file passes validation. -/
theorem page_file_invariant_witness : validateFile fileEdge = none :=
  (page_file_invariant [] fileEdge).2.2 (by decide) rfl

/-- Claim C3: a payload whose content type is not an image type or whose
size strictly exceeds the configured 5 MB limit is rejected with
PayloadRejected and the decode counter stays 0, so no decoding or
preprocessing runs on it. -/
theorem predict_rejects_before_decode (decode : RawPayload → Option (List ℚ))
    (p : RawPayload)
    (h : strStartsWith p.contentType imageMime = false ∨ MAX_PAYLOAD_BYTES < p.size) :
    predictOp decode p = (Except.error AppError.PayloadRejected, 0) := by
  unfold predictOp
  rcases h with h | h
  · rw [if_neg (by rw [h]; exact Bool.false_ne_true)]
  · by_cases h1 : strStartsWith p.contentType imageMime = true
    · rw [if_pos h1, if_pos h]
    · rw [if_neg h1]

/-- Claim C3 witness: a 6 MB JPEG payload is rejected without decoding. -/
theorem predict_rejects_before_decode_witness :
    MAX_PAYLOAD_BYTES < payloadBig.size ∧
      predictOp decodeNone payloadBig = (Except.error AppError.PayloadRejected, 0) :=
  ⟨by decide, predict_rejects_before_decode decodeNone payloadBig (Or.inr (by decide))⟩

/-- Claim C8: every taxonomy error is surfaced as a structured object
with one nonempty error message that the client error reader decodes
back; a failed evaluation run leaves the published metrics document
untouched, so the matrix under construction is never partially
published; and the metrics query before any evaluation ran returns the
structured NoMetricsAvailable error. -/
theorem errors_structured (e : AppError) (st : ServerState)
    (ds : List (Nat × Option Nat))
    (hfail : evaluate ds = Except.error AppError.EmptyOrInvalidDataset) :
    surfaceError e = Json.obj ((errorKey, Json.str (errorMessage e)) :: []) ∧
    0 < (jsTrim (errorMessage e)).length ∧
    readErrorMessage (surfaceError e) fallbackMsg = errorMessage e ∧
    runEval st ds = (st, Except.error AppError.EmptyOrInvalidDataset) ∧
    metricsQuery stEmpty = Except.error (surfaceError AppError.NoMetricsAvailable) := by
  refine ⟨rfl, ?_, ?_, ?_, rfl⟩
  · cases e <;> decide
  · cases e <;> decide
  · unfold runEval
    rw [hfail]

/-- Claim C8 witness: a failing run on the all-skipped dataset leaves
the empty server state unchanged. -/
theorem errors_structured_witness :
    runEval stEmpty dsAllFail = (stEmpty, Except.error AppError.EmptyOrInvalidDataset) :=
  (errors_structured AppError.InvalidImage stEmpty dsAllFail rfl).2.2.2.1

/-- Claim C1: whenever predict accepts and decodes a payload and the
classifier output is a valid probability vector of the 7 registry
classes, the response carries exactly 7 label-probability entries, one
per registry label, whose probabilities sum to 1 within 1/10000 and
which are sorted in descending order of probability. -/
theorem predict_seven_sorted (decode : RawPayload → Option (List ℚ))
    (p : RawPayload) (res : PredictionResult) (n : Nat)
    (hdec : ∀ q v, decode q = some v → v.length = 7 ∧ |v.sum - 1| ≤ 1/10000)
    (hok : predictOp decode p = (Except.ok res, n)) :
    res.all_probabilities.length = 7 ∧
    ((res.all_probabilities.map Prod.fst).Perm labels) ∧
    |((res.all_probabilities.map Prod.snd).sum) - 1| ≤ 1/10000 ∧
    List.Sorted probDesc res.all_probabilities := by
  unfold predictOp at hok
  by_cases h1 : strStartsWith p.contentType imageMime = true
  · rw [if_pos h1] at hok
    by_cases h2 : MAX_PAYLOAD_BYTES < p.size
    · rw [if_pos h2] at hok
      exact absurd (congrArg Prod.fst hok) (by simp)
    · rw [if_neg h2] at hok
      cases hd : decode p with
      | none =>
          rw [hd] at hok
          exact absurd (congrArg Prod.fst hok) (by simp)
      | some v =>
          rw [hd] at hok
          have hres : res = formatResult v := by
            have := congrArg Prod.fst hok
            simpa using this.symm
          obtain ⟨h7, hsum⟩ := hdec p v hd
          subst hres
          refine ⟨rankProbs_length v h7, rankProbs_perm_labels v h7, ?_,
            rankProbs_sorted v⟩
          show |((rankProbs v).map Prod.snd).sum - 1| ≤ 1/10000
          rw [rankProbs_sum v h7]
          exact hsum
  · rw [if_neg h1] at hok
    exact absurd (congrArg Prod.fst hok) (by simp)

/-- Claim C1 witness: a concrete decode function and payload. -/
theorem predict_seven_sorted_witness :
    (formatResult probsW).all_probabilities.length = 7 ∧
    (((formatResult probsW).all_probabilities.map Prod.fst).Perm labels) ∧
    |(((formatResult probsW).all_probabilities.map Prod.snd).sum) - 1| ≤ 1/10000 ∧
    List.Sorted probDesc (formatResult probsW).all_probabilities :=
  predict_seven_sorted decodeW payloadOk (formatResult probsW) 1
    (fun q v hqv => by
      have hv : v = probsW := by
        simp [decodeW] at hqv
        exact hqv.symm
      subst hv
      refine ⟨rfl, ?_⟩
      have hs : probsW.sum = 1 := by
        norm_num [probsW, List.sum_cons, List.sum_nil]
      rw [hs]
      norm_num)
    (by
      show predictOp decodeW payloadOk = (Except.ok (formatResult probsW), 1)
      unfold predictOp
      rw [if_pos (by decide), if_neg (by decide)]
      rfl)

/-- Claim C2: the predicted class is the label at the first index
attaining the maximum of the probability vector and the confidence is
that maximum, so ties resolve to the lower Label Registry index. -/
theorem predicted_class_argmax (v : List ℚ) (h7 : v.length = 7) :
    ∃ i : Nat, i < 7 ∧
      (formatResult v).predicted_class = labels.getD i noLabel ∧
      (formatResult v).confidence = v.getD i 0 ∧
      (∀ j, j < 7 → v.getD j 0 ≤ v.getD i 0) ∧
      (∀ j, j < i → v.getD j 0 < v.getD i 0) := by
  refine ⟨argmaxIdx v, ?_, rfl, rfl, ?_, ?_⟩
  · have h := argmaxIdx_lt_length v (by
      intro hnil
      rw [hnil] at h7
      simp at h7)
    omega
  · intro j hj
    exact argmaxIdx_is_max v j (by omega)
  · intro j hj
    exact argmaxIdx_first v j hj

/-- Claim C2 witness: a probability vector with a tie at the maximum. -/
theorem predicted_class_argmax_witness :
    probsTie.length = 7 ∧
      (∃ i : Nat, i < 7 ∧
        (formatResult probsTie).predicted_class = labels.getD i noLabel ∧
        (formatResult probsTie).confidence = probsTie.getD i 0 ∧
        (∀ j, j < 7 → probsTie.getD j 0 ≤ probsTie.getD i 0) ∧
        (∀ j, j < i → probsTie.getD j 0 < probsTie.getD i 0)) :=
  ⟨rfl, predicted_class_argmax probsTie rfl⟩

/-- Claim C4: for every valid dataset the confusion matrix is a
complete 7 by 7 table, a label that never occurs as ground truth keeps
an all-zero row, and the sum of all cells equals the number of samples
processed excluding the skipped ones. -/
theorem confusion_matrix_complete (ds : List (Nat × Option Nat)) (hv : validDS ds) :
    (runMatrix ds).1.length = 7 ∧
    (∀ r ∈ (runMatrix ds).1, r.length = 7) ∧
    cellSum (runMatrix ds).1 = ds.length - (runMatrix ds).2 ∧
    (∀ c, c < 7 → (∀ s ∈ ds, s.1 ≠ c) →
      (runMatrix ds).1.getD c [] = List.replicate 7 0) := by
  have hshape : matShape ((runMatrix ds).1) :=
    evalFold_shape ds initMatrix 0 initMatrix_shape hv
  refine ⟨hshape.1, hshape.2, cellSum_runMatrix ds hv, ?_⟩
  intro c hc habs
  exact row_eq_zero_of_cells _ c (row_length _ c hshape hc)
    (cells_zero_of_absent ds hv c hc habs)

/-- Claim C4 witness: a dataset with one skipped image and several
absent classes. -/
theorem confusion_matrix_complete_witness :
    validDS dsMixed ∧
      ((runMatrix dsMixed).1.length = 7 ∧
        (∀ r ∈ (runMatrix dsMixed).1, r.length = 7) ∧
        cellSum (runMatrix dsMixed).1 = dsMixed.length - (runMatrix dsMixed).2 ∧
        (∀ c, c < 7 → (∀ s ∈ dsMixed, s.1 ≠ c) →
          (runMatrix dsMixed).1.getD c [] = List.replicate 7 0)) :=
  ⟨by unfold validDS; decide, confusion_matrix_complete dsMixed (by unfold validDS; decide)⟩

/-- Claim C5: per-class precision, recall and F1 follow the stated
TP, FP, FN formulas with value 0 whenever the denominator is 0 (FP and
FN are the off-diagonal column and row masses), and a class with no
ground-truth samples reports support 0 and precision, recall and F1 all
0, never a division fault. -/
theorem per_class_metrics (ds : List (Nat × Option Nat)) (hv : validDS ds)
    (c : Nat) (hc : c < 7) :
    (precision (runMatrix ds).1 c =
      if cell (runMatrix ds).1 c c
          + (predictedCount (runMatrix ds).1 c - cell (runMatrix ds).1 c c) = 0 then 0
      else (cell (runMatrix ds).1 c c : ℚ)
        / ((cell (runMatrix ds).1 c c
            + (predictedCount (runMatrix ds).1 c - cell (runMatrix ds).1 c c) : Nat) : ℚ)) ∧
    (recallScore (runMatrix ds).1 c =
      if cell (runMatrix ds).1 c c
          + (support (runMatrix ds).1 c - cell (runMatrix ds).1 c c) = 0 then 0
      else (cell (runMatrix ds).1 c c : ℚ)
        / ((cell (runMatrix ds).1 c c
            + (support (runMatrix ds).1 c - cell (runMatrix ds).1 c c) : Nat) : ℚ)) ∧
    (f1score (runMatrix ds).1 c =
      if precision (runMatrix ds).1 c + recallScore (runMatrix ds).1 c = 0 then 0
      else 2 * precision (runMatrix ds).1 c * recallScore (runMatrix ds).1 c
        / (precision (runMatrix ds).1 c + recallScore (runMatrix ds).1 c)) ∧
    ((∀ s ∈ ds, s.1 ≠ c) →
      support (runMatrix ds).1 c = 0 ∧ precision (runMatrix ds).1 c = 0 ∧
        recallScore (runMatrix ds).1 c = 0 ∧ f1score (runMatrix ds).1 c = 0) := by
  have hshape : matShape ((runMatrix ds).1) :=
    evalFold_shape ds initMatrix 0 initMatrix_shape hv
  have hTPcol : cell (runMatrix ds).1 c c ≤ predictedCount (runMatrix ds).1 c :=
    getD_le_map_sum (runMatrix ds).1 c (fun r => r.getD c 0) [] (hshape.1 ▸ hc)
  have hTProw : cell (runMatrix ds).1 c c ≤ support (runMatrix ds).1 c :=
    getD_le_sum ((runMatrix ds).1.getD c []) c
  refine ⟨?_, ?_, rfl, ?_⟩
  · rw [Nat.add_sub_cancel' hTPcol]
    rfl
  · rw [Nat.add_sub_cancel' hTProw]
    rfl
  · intro habs
    have hcells := cells_zero_of_absent ds hv c hc habs
    have hsup : support (runMatrix ds).1 c = 0 :=
      support_eq_zero_of_cells _ c (row_length _ c hshape hc) hcells
    have hTP0 : cell (runMatrix ds).1 c c = 0 := hcells c hc
    have hprec : precision (runMatrix ds).1 c = 0 := by
      simp [precision, hTP0]
    have hrec : recallScore (runMatrix ds).1 c = 0 := by
      simp [recallScore, hsup]
    refine ⟨hsup, hprec, hrec, ?_⟩
    simp [f1score, hprec, hrec]

/-- Claim C5 witness: class 6 is absent from dsNoSix, so its support
and all three metrics are 0. -/
theorem per_class_metrics_witness :
    support (runMatrix dsNoSix).1 6 = 0 ∧ precision (runMatrix dsNoSix).1 6 = 0 ∧
      recallScore (runMatrix dsNoSix).1 6 = 0 ∧ f1score (runMatrix dsNoSix).1 6 = 0 :=
  (per_class_metrics dsNoSix (by unfold validDS; decide) 6 (by decide)).2.2.2
    (by decide)

/-- Claim C6: in every successful evaluation run in which all 7 classes
have equal support, each weighted-average metric equals the
corresponding macro-average metric. -/
theorem balanced_averages_agree (ds : List (Nat × Option Nat)) (hv : validDS ds)
    (hproc : ¬ ds.length - (runMatrix ds).2 = 0)
    (heq : ∀ c, c < 7 → ∀ c2, c2 < 7 →
      support (runMatrix ds).1 c = support (runMatrix ds).1 c2) :
    weightedAvg (runMatrix ds).1 (precision (runMatrix ds).1)
        = macroAvg (precision (runMatrix ds).1) ∧
    weightedAvg (runMatrix ds).1 (recallScore (runMatrix ds).1)
        = macroAvg (recallScore (runMatrix ds).1) ∧
    weightedAvg (runMatrix ds).1 (f1score (runMatrix ds).1)
        = macroAvg (f1score (runMatrix ds).1) ∧
    (∀ res, evaluate ds = Except.ok res →
      res.weightedPrecision = res.macroPrecision ∧
      res.weightedRecall = res.macroRecall ∧
      res.weightedF1 = res.macroF1) := by
  have hshape : matShape ((runMatrix ds).1) :=
    evalFold_shape ds initMatrix 0 initMatrix_shape hv
  have hts : totalSupport (runMatrix ds).1 ≠ 0 := by
    rw [totalSupport_eq_cellSum _ hshape.1, cellSum_runMatrix ds hv]
    exact hproc
  refine ⟨weightedAvg_eq_macroAvg _ _ hts heq, weightedAvg_eq_macroAvg _ _ hts heq,
    weightedAvg_eq_macroAvg _ _ hts heq, ?_⟩
  intro res hok
  unfold evaluate at hok
  rw [if_neg hproc] at hok
  have hres := (Except.ok.inj hok).symm
  subst hres
  exact ⟨weightedAvg_eq_macroAvg _ _ hts heq, weightedAvg_eq_macroAvg _ _ hts heq,
    weightedAvg_eq_macroAvg _ _ hts heq⟩

/-- Claim C6 witness: the balanced dataset, one sample per class. -/
theorem balanced_averages_agree_witness :
    weightedAvg (runMatrix dsBalanced).1 (precision (runMatrix dsBalanced).1)
      = macroAvg (precision (runMatrix dsBalanced).1) :=
  (balanced_averages_agree dsBalanced (by unfold validDS; decide) (by decide)
    (by decide)).1

/-- Claim C7: every image that fails to decode is counted as skipped
without aborting the run, and evaluation fails with
EmptyOrInvalidDataset exactly when every image in the dataset fails to
decode. -/
theorem skip_and_empty_dataset (ds : List (Nat × Option Nat)) :
    (evaluate ds = Except.error AppError.EmptyOrInvalidDataset
      ↔ ∀ s ∈ ds, s.2 = none) ∧
    (∀ res, evaluate ds = Except.ok res →
      res.skipped = (ds.filter (fun s => s.2.isNone)).length ∧
      res.num_test_samples + res.skipped = ds.length) := by
  have hsk : (runMatrix ds).2 = (ds.filter (fun s => s.2.isNone)).length := by
    show (ds.foldl evalStep (initMatrix, 0)).2 = _
    rw [evalFold_skipped ds initMatrix 0]
    omega
  have hle := List.length_filter_le (fun s : Nat × Option Nat => s.2.isNone) ds
  constructor
  · unfold evaluate
    by_cases hc : ds.length - (runMatrix ds).2 = 0
    · rw [if_pos hc]
      apply iff_of_true rfl
      apply (filter_isNone_eq_length_iff ds).mp
      omega
    · rw [if_neg hc]
      apply iff_of_false
      · intro hh
        exact Except.noConfusion hh
      · intro hall
        have := (filter_isNone_eq_length_iff ds).mpr hall
        omega
  · intro res hok
    unfold evaluate at hok
    by_cases hc : ds.length - (runMatrix ds).2 = 0
    · rw [if_pos hc] at hok
      exact absurd hok (fun hh => Except.noConfusion hh)
    · rw [if_neg hc] at hok
      have hres := (Except.ok.inj hok).symm
      subst hres
      constructor
      · exact hsk
      · show ds.length - (runMatrix ds).2 + (runMatrix ds).2 = ds.length
        omega

/-- Claim C7 witness: a dataset whose every image fails to decode. -/
theorem skip_and_empty_dataset_witness :
    evaluate dsAllFail = Except.error AppError.EmptyOrInvalidDataset :=
  (skip_and_empty_dataset dsAllFail).1.mpr (by decide)
